import Mathlib

/-!
Verification of the OIDC4VCI mock issuance state machine of the sandbox
issuer service (pkg/restapi/issuer/operation/operations.go), as a shallow
embedding in Lean 4.  Handlers become pure functions over an explicit
key-value store; fresh UUIDs (uuid.NewString) are passed in as arguments;
Go byte slices become Lean strings (lists of characters).
-/

/-! ## Key-value store

The injected storage provider (aries spi storage, an external collaborator)
exposes Put and Get; Get fails with a not-found error on a missing key,
modelled by Option.  Put overwrites; the association list keeps the newest
binding first and Get returns the first match.
-/

abbrev Store := List (String × String)

def Store.put (s : Store) (k v : String) : Store := (k, v) :: s

def Store.get : Store → String → Option String
  | [], _ => none
  | (k1, v) :: t, k => if k = k1 then some v else Store.get t k

theorem Store.get_put_self (s : Store) (k v : String) :
    Store.get (Store.put s k v) k = some v := by
  simp [Store.get, Store.put]

theorem Store.get_put_other (s : Store) (k k2 v : String) (h : k2 ≠ k) :
    Store.get (Store.put s k v) k2 = Store.get s k2 := by
  simp [Store.get, Store.put, h]

/-! ## Composite store keys (operations.go lines 2685-2699)

Go builds them with fmt.Sprintf("cred_store_%s", key) and friends.
(Names are shortened from the Go getXxxKeyPrefix helpers.)
-/

def getCredStoreKey (key : String) : String := "cred_store_" ++ key

def getAuthStateKey (key : String) : String := "authstate_" ++ key

def getAuthCodeKey (key : String) : String := "authcode_" ++ key

def getAccessTokenKey (key : String) : String := "access_token_" ++ key

/-! ## Hex digits -/

def hexCharVal (c : Char) : Option Nat :=
  if 48 ≤ c.toNat ∧ c.toNat ≤ 57 then some (c.toNat - 48)
  else if 97 ≤ c.toNat ∧ c.toNat ≤ 102 then some (c.toNat - 87)
  else if 65 ≤ c.toNat ∧ c.toNat ≤ 70 then some (c.toNat - 55)
  else none

def hexDigitChar (n : Nat) : Char :=
  if n < 10 then Char.ofNat (48 + n) else Char.ofNat (87 + n)

theorem hexCharVal_hexDigitChar (k : Nat) (hk : k < 16) :
    hexCharVal (hexDigitChar k) = some k := by
  interval_cases k <;> decide

/-! ## JSON string escaping, after Go encoding/json appendString

Go escapes the quote and backslash, writes newline, carriage return and tab
as two-character escapes, escapes other control characters (and, with the
default HTML escaping of json.Marshal, the three characters lt, gt, amp)
as backslash-u sequences with lowercase hex, and escapes U+2028/U+2029.
All other characters pass through.
-/

def escapeJSONChar (c : Char) : List Char :=
  if c = '"' then ['\\', '"']
  else if c = '\\' then ['\\', '\\']
  else if c = '\n' then ['\\', 'n']
  else if c = '\r' then ['\\', 'r']
  else if c = '\t' then ['\\', 't']
  else if c.toNat < 32 then
    ['\\', 'u', '0', '0', hexDigitChar (c.toNat / 16), hexDigitChar (c.toNat % 16)]
  else if c = '<' then ['\\', 'u', '0', '0', '3', 'c']
  else if c = '>' then ['\\', 'u', '0', '0', '3', 'e']
  else if c = '&' then ['\\', 'u', '0', '0', '2', '6']
  else if c.toNat = 8232 then ['\\', 'u', '2', '0', '2', '8']
  else if c.toNat = 8233 then ['\\', 'u', '2', '0', '2', '9']
  else [c]

def escapeJSONList (l : List Char) : List Char :=
  l.foldr (fun c acc => escapeJSONChar c ++ acc) []

/-! ## JSON string parsing (the string-literal fragment of encoding/json)

parseJSONString consumes characters up to and including the closing quote,
decoding the escape sequences, and returns the decoded characters together
with the unconsumed remainder.
-/

def consFst (c : Char) (p : List Char × List Char) : List Char × List Char :=
  (c :: p.1, p.2)

def hex4 (a b c d : Char) : Option Nat :=
  match hexCharVal a, hexCharVal b, hexCharVal c, hexCharVal d with
  | some x, some y, some z, some w => some (x * 4096 + y * 256 + z * 16 + w)
  | _, _, _, _ => none

/-- Decodes one escape sequence: given the character after the backslash and
the remaining input, returns the decoded character and the remainder. -/
def decodeEsc (e : Char) (rest : List Char) : Option (Char × List Char) :=
  if e = '"' then some ('"', rest)
  else if e = '\\' then some ('\\', rest)
  else if e = '/' then some ('/', rest)
  else if e = 'b' then some (Char.ofNat 8, rest)
  else if e = 'f' then some (Char.ofNat 12, rest)
  else if e = 'n' then some ('\n', rest)
  else if e = 'r' then some ('\r', rest)
  else if e = 't' then some ('\t', rest)
  else if e = 'u' then
    match rest with
    | h1 :: h2 :: h3 :: h4 :: rest2 => (hex4 h1 h2 h3 h4).map (fun n => (Char.ofNat n, rest2))
    | _ => none
  else none

/-- Fueled JSON string-literal parser; one unit of fuel is spent per decoded
character, so any fuel above the input length is enough. -/
def parseJSONStringF : Nat → List Char → Option (List Char × List Char)
  | 0, _ => none
  | _ + 1, [] => none
  | fuel + 1, c :: rest =>
    if c = '"' then some ([], rest)
    else if c = '\\' then
      match rest with
      | [] => none
      | e :: rest2 =>
        match decodeEsc e rest2 with
        | some (d, rest3) => (parseJSONStringF fuel rest3).map (consFst d)
        | none => none
    else (parseJSONStringF fuel rest).map (consFst c)

def parseJSONString (l : List Char) : Option (List Char × List Char) :=
  parseJSONStringF (l.length + 1) l

theorem string_mk_data (l : List Char) : (String.mk l).data = l := rfl

theorem string_mk_data_self (s : String) : String.mk s.data = s := by
  cases s; rfl

theorem parseJSONStringF_quote (fuel : Nat) (rest : List Char) :
    parseJSONStringF (fuel + 1) ('"' :: rest) = some ([], rest) := by
  simp [parseJSONStringF]

theorem parseJSONStringF_plain (fuel : Nat) (c : Char) (rest : List Char)
    (h1 : c ≠ '"') (h2 : c ≠ '\\') :
    parseJSONStringF (fuel + 1) (c :: rest) = (parseJSONStringF fuel rest).map (consFst c) := by
  simp [parseJSONStringF, h1, h2]

theorem parseJSONStringF_esc (fuel : Nat) (e d : Char) (rest2 rest3 : List Char)
    (h : decodeEsc e rest2 = some (d, rest3)) :
    parseJSONStringF (fuel + 1) ('\\' :: e :: rest2)
      = (parseJSONStringF fuel rest3).map (consFst d) := by
  simp [parseJSONStringF, h]

theorem hex4_byte (n : Nat) (h : n < 256) :
    hex4 '0' '0' (hexDigitChar (n / 16)) (hexDigitChar (n % 16)) = some n := by
  unfold hex4
  rw [show hexCharVal '0' = some 0 from by decide,
    hexCharVal_hexDigitChar (n / 16) (by omega), hexCharVal_hexDigitChar (n % 16) (by omega)]
  simp
  omega

theorem decodeEsc_u (h1 h2 h3 h4 : Char) (rest2 : List Char) :
    decodeEsc 'u' (h1 :: h2 :: h3 :: h4 :: rest2)
      = (hex4 h1 h2 h3 h4).map (fun n => (Char.ofNat n, rest2)) := rfl

theorem escapeJSONChar_control (c : Char) (n1 : ¬ c = '"') (n2 : ¬ c = '\\')
    (n3 : ¬ c = '\n') (n4 : ¬ c = '\r') (n5 : ¬ c = '\t') (h : c.toNat < 32) :
    escapeJSONChar c
      = ['\\', 'u', '0', '0', hexDigitChar (c.toNat / 16), hexDigitChar (c.toNat % 16)] := by
  unfold escapeJSONChar
  rw [if_neg n1, if_neg n2, if_neg n3, if_neg n4, if_neg n5, if_pos h]

theorem escapeJSONChar_2028 (c : Char) (n1 : ¬ c = '"') (n2 : ¬ c = '\\')
    (n3 : ¬ c = '\n') (n4 : ¬ c = '\r') (n5 : ¬ c = '\t') (n6 : ¬ c.toNat < 32)
    (n7 : ¬ c = '<') (n8 : ¬ c = '>') (n9 : ¬ c = '&') (h : c.toNat = 8232) :
    escapeJSONChar c = ['\\', 'u', '2', '0', '2', '8'] := by
  unfold escapeJSONChar
  rw [if_neg n1, if_neg n2, if_neg n3, if_neg n4, if_neg n5, if_neg n6, if_neg n7,
    if_neg n8, if_neg n9, if_pos h]

theorem escapeJSONChar_2029 (c : Char) (n1 : ¬ c = '"') (n2 : ¬ c = '\\')
    (n3 : ¬ c = '\n') (n4 : ¬ c = '\r') (n5 : ¬ c = '\t') (n6 : ¬ c.toNat < 32)
    (n7 : ¬ c = '<') (n8 : ¬ c = '>') (n9 : ¬ c = '&') (n10 : ¬ c.toNat = 8232)
    (h : c.toNat = 8233) : escapeJSONChar c = ['\\', 'u', '2', '0', '2', '9'] := by
  unfold escapeJSONChar
  rw [if_neg n1, if_neg n2, if_neg n3, if_neg n4, if_neg n5, if_neg n6, if_neg n7,
    if_neg n8, if_neg n9, if_neg n10, if_pos h]

theorem escapeJSONChar_default (c : Char) (n1 : ¬ c = '"') (n2 : ¬ c = '\\')
    (n3 : ¬ c = '\n') (n4 : ¬ c = '\r') (n5 : ¬ c = '\t') (n6 : ¬ c.toNat < 32)
    (n7 : ¬ c = '<') (n8 : ¬ c = '>') (n9 : ¬ c = '&') (n10 : ¬ c.toNat = 8232)
    (n11 : ¬ c.toNat = 8233) : escapeJSONChar c = [c] := by
  unfold escapeJSONChar
  rw [if_neg n1, if_neg n2, if_neg n3, if_neg n4, if_neg n5, if_neg n6, if_neg n7,
    if_neg n8, if_neg n9, if_neg n10, if_neg n11]

/-- Round trip for a single escaped character: parsing the escape of c followed
by any parsable tail prepends c to the tail's parse. -/
theorem parseF_escapeChar (c : Char) (fuel : Nat) (tl t rest : List Char)
    (ih : parseJSONStringF fuel tl = some (t, rest)) :
    parseJSONStringF (fuel + 1) (escapeJSONChar c ++ tl) = some (c :: t, rest) := by
  by_cases n1 : c = '"'
  · subst n1
    rw [show escapeJSONChar '"' ++ tl = '\\' :: '"' :: tl from rfl,
      parseJSONStringF_esc fuel '"' '"' tl tl rfl, ih]
    rfl
  by_cases n2 : c = '\\'
  · subst n2
    rw [show escapeJSONChar '\\' ++ tl = '\\' :: '\\' :: tl from rfl,
      parseJSONStringF_esc fuel '\\' '\\' tl tl rfl, ih]
    rfl
  by_cases n3 : c = '\n'
  · subst n3
    rw [show escapeJSONChar '\n' ++ tl = '\\' :: 'n' :: tl from rfl,
      parseJSONStringF_esc fuel 'n' '\n' tl tl rfl, ih]
    rfl
  by_cases n4 : c = '\r'
  · subst n4
    rw [show escapeJSONChar '\r' ++ tl = '\\' :: 'r' :: tl from rfl,
      parseJSONStringF_esc fuel 'r' '\r' tl tl rfl, ih]
    rfl
  by_cases n5 : c = '\t'
  · subst n5
    rw [show escapeJSONChar '\t' ++ tl = '\\' :: 't' :: tl from rfl,
      parseJSONStringF_esc fuel 't' '\t' tl tl rfl, ih]
    rfl
  by_cases n6 : c.toNat < 32
  · have hdec : decodeEsc 'u' ('0' :: '0' :: hexDigitChar (c.toNat / 16)
        :: hexDigitChar (c.toNat % 16) :: tl) = some (c, tl) := by
      rw [decodeEsc_u, hex4_byte c.toNat (by omega)]
      show some (Char.ofNat c.toNat, tl) = some (c, tl)
      rw [Char.ofNat_toNat]
    rw [escapeJSONChar_control c n1 n2 n3 n4 n5 n6]
    rw [show (['\\', 'u', '0', '0', hexDigitChar (c.toNat / 16), hexDigitChar (c.toNat % 16)]
        ++ tl : List Char) = '\\' :: 'u' :: '0' :: '0' :: hexDigitChar (c.toNat / 16)
        :: hexDigitChar (c.toNat % 16) :: tl from rfl]
    rw [parseJSONStringF_esc fuel 'u' c _ tl hdec, ih]
    rfl
  by_cases n7 : c = '<'
  · subst n7
    rw [show escapeJSONChar '<' ++ tl = '\\' :: 'u' :: '0' :: '0' :: '3' :: 'c' :: tl from rfl,
      parseJSONStringF_esc fuel 'u' '<' ('0' :: '0' :: '3' :: 'c' :: tl) tl rfl, ih]
    rfl
  by_cases n8 : c = '>'
  · subst n8
    rw [show escapeJSONChar '>' ++ tl = '\\' :: 'u' :: '0' :: '0' :: '3' :: 'e' :: tl from rfl,
      parseJSONStringF_esc fuel 'u' '>' ('0' :: '0' :: '3' :: 'e' :: tl) tl rfl, ih]
    rfl
  by_cases n9 : c = '&'
  · subst n9
    rw [show escapeJSONChar '&' ++ tl = '\\' :: 'u' :: '0' :: '0' :: '2' :: '6' :: tl from rfl,
      parseJSONStringF_esc fuel 'u' '&' ('0' :: '0' :: '2' :: '6' :: tl) tl rfl, ih]
    rfl
  by_cases n10 : c.toNat = 8232
  · have hc : Char.ofNat 8232 = c := by rw [← n10]; exact Char.ofNat_toNat c
    rw [escapeJSONChar_2028 c n1 n2 n3 n4 n5 n6 n7 n8 n9 n10]
    rw [show (['\\', 'u', '2', '0', '2', '8'] ++ tl : List Char)
        = '\\' :: 'u' :: '2' :: '0' :: '2' :: '8' :: tl from rfl]
    rw [parseJSONStringF_esc fuel 'u' (Char.ofNat 8232) ('2' :: '0' :: '2' :: '8' :: tl) tl rfl, ih]
    rw [hc]
    rfl
  by_cases n11 : c.toNat = 8233
  · have hc : Char.ofNat 8233 = c := by rw [← n11]; exact Char.ofNat_toNat c
    rw [escapeJSONChar_2029 c n1 n2 n3 n4 n5 n6 n7 n8 n9 n10 n11]
    rw [show (['\\', 'u', '2', '0', '2', '9'] ++ tl : List Char)
        = '\\' :: 'u' :: '2' :: '0' :: '2' :: '9' :: tl from rfl]
    rw [parseJSONStringF_esc fuel 'u' (Char.ofNat 8233) ('2' :: '0' :: '2' :: '9' :: tl) tl rfl, ih]
    rw [hc]
    rfl
  · rw [escapeJSONChar_default c n1 n2 n3 n4 n5 n6 n7 n8 n9 n10 n11,
      show ([c] ++ tl : List Char) = c :: tl from rfl,
      parseJSONStringF_plain fuel c tl n1 n2, ih]
    rfl

theorem parseF_escapeList (s : List Char) : ∀ fuel rest, s.length < fuel →
    parseJSONStringF fuel (escapeJSONList s ++ '"' :: rest) = some (s, rest) := by
  induction s with
  | nil =>
    intro fuel rest h
    obtain ⟨f, rfl⟩ : ∃ f, fuel = f + 1 := ⟨fuel - 1, by omega⟩
    exact parseJSONStringF_quote f rest
  | cons c t ih =>
    intro fuel rest h
    obtain ⟨f, rfl⟩ : ∃ f, fuel = f + 1 := ⟨fuel - 1, by omega⟩
    have ht : parseJSONStringF f (escapeJSONList t ++ '"' :: rest) = some (t, rest) :=
      ih f rest (by simp at h; omega)
    rw [show escapeJSONList (c :: t) = escapeJSONChar c ++ escapeJSONList t from rfl,
      List.append_assoc]
    exact parseF_escapeChar c f _ t rest ht

theorem escapeJSONChar_length_pos (c : Char) : 1 ≤ (escapeJSONChar c).length := by
  by_cases n1 : c = '"'
  · subst n1; decide
  by_cases n2 : c = '\\'
  · subst n2; decide
  by_cases n3 : c = '\n'
  · subst n3; decide
  by_cases n4 : c = '\r'
  · subst n4; decide
  by_cases n5 : c = '\t'
  · subst n5; decide
  by_cases n6 : c.toNat < 32
  · rw [escapeJSONChar_control c n1 n2 n3 n4 n5 n6]; simp
  by_cases n7 : c = '<'
  · subst n7; decide
  by_cases n8 : c = '>'
  · subst n8; decide
  by_cases n9 : c = '&'
  · subst n9; decide
  by_cases n10 : c.toNat = 8232
  · rw [escapeJSONChar_2028 c n1 n2 n3 n4 n5 n6 n7 n8 n9 n10]; simp
  by_cases n11 : c.toNat = 8233
  · rw [escapeJSONChar_2029 c n1 n2 n3 n4 n5 n6 n7 n8 n9 n10 n11]; simp
  · rw [escapeJSONChar_default c n1 n2 n3 n4 n5 n6 n7 n8 n9 n10 n11]; simp

theorem escapeJSONList_length (s : List Char) : s.length ≤ (escapeJSONList s).length := by
  induction s with
  | nil => simp [escapeJSONList]
  | cons c t ih =>
    have h1 := escapeJSONChar_length_pos c
    have h2 : escapeJSONList (c :: t) = escapeJSONChar c ++ escapeJSONList t := rfl
    rw [h2]
    simp only [List.length_append, List.length_cons]
    omega

/-- Parsing the JSON escape of a string followed by a closing quote recovers
the string exactly. -/
theorem parseJSONString_escape (s rest : List Char) :
    parseJSONString (escapeJSONList s ++ '"' :: rest) = some (s, rest) := by
  apply parseF_escapeList
  have := escapeJSONList_length s
  simp only [List.length_append, List.length_cons]
  omega

/-! ## The serialized authorization request

oidcAuthorize (operations.go line 1719) serializes the six request fields with
json.Marshal over a map with string keys; Go emits the keys in sorted order
(claims, client_id, redirect_uri, response_type, scope, state).
unmarshalAuthRequest models json.Unmarshal restricted to documents of exactly
that shape, which covers every value this store position can hold, since the
only writer is oidcAuthorize.
-/

structure AuthRequest where
  claims : String
  scope : String
  state : String
  responseType : String
  clientID : String
  redirectURI : String

def marshalAuthRequest (a : AuthRequest) : String :=
  String.mk ("\x7b\"claims\":\"".data ++ (escapeJSONList a.claims.data ++ '"' ::
    (",\"client_id\":\"".data ++ (escapeJSONList a.clientID.data ++ '"' ::
    (",\"redirect_uri\":\"".data ++ (escapeJSONList a.redirectURI.data ++ '"' ::
    (",\"response_type\":\"".data ++ (escapeJSONList a.responseType.data ++ '"' ::
    (",\"scope\":\"".data ++ (escapeJSONList a.scope.data ++ '"' ::
    (",\"state\":\"".data ++ (escapeJSONList a.state.data ++ '"' :: ['\x7d']))))))))))))

/-- Consumes an expected literal prefix, returning the remainder. -/
def dropLit : List Char → List Char → Option (List Char)
  | [], l => some l
  | _ :: _, [] => none
  | p :: ps, c :: cs => if c = p then dropLit ps cs else none

theorem dropLit_append (p l : List Char) : dropLit p (p ++ l) = some l := by
  induction p with
  | nil => rfl
  | cons c t ih => simp [dropLit, ih]

def unmarshalAuthRequest (s : String) : Option AuthRequest := do
  let l0 ← dropLit "\x7b\"claims\":\"".data s.data
  let (cl, l1) ← parseJSONString l0
  let l2 ← dropLit ",\"client_id\":\"".data l1
  let (cid, l3) ← parseJSONString l2
  let l4 ← dropLit ",\"redirect_uri\":\"".data l3
  let (ru, l5) ← parseJSONString l4
  let l6 ← dropLit ",\"response_type\":\"".data l5
  let (rt, l7) ← parseJSONString l6
  let l8 ← dropLit ",\"scope\":\"".data l7
  let (sc, l9) ← parseJSONString l8
  let l10 ← dropLit ",\"state\":\"".data l9
  let (st, l11) ← parseJSONString l10
  if l11 = ['\x7d'] then
    some ⟨String.mk cl, String.mk sc, String.mk st, String.mk rt, String.mk cid, String.mk ru⟩
  else none

/-- The Go marshal/unmarshal pair on authorization requests is the identity:
a stored request deserializes to exactly the fields that were serialized. -/
theorem unmarshal_marshalAuthRequest (a : AuthRequest) :
    unmarshalAuthRequest (marshalAuthRequest a) = some a := by
  unfold unmarshalAuthRequest marshalAuthRequest
  simp only [string_mk_data, dropLit_append, parseJSONString_escape, Option.bind_eq_bind,
    Option.some_bind, string_mk_data_self]
  simp

/-! ## Percent-decoding (net/url.PathUnescape)

Modelled character-wise: a percent sign must be followed by two hex digits
and decodes to the character with that code; anything else passes through.
Go operates on bytes, so multi-byte UTF-8 sequences decode byte by byte
there; the claims below depend only on failure and emptiness, which agree.
-/

def pathUnescapeAux : List Char → Option (List Char)
  | [] => some []
  | c :: rest =>
    if c = '%' then
      match rest with
      | h1 :: h2 :: rest2 =>
        match hexCharVal h1, hexCharVal h2 with
        | some a, some b => (pathUnescapeAux rest2).map (fun l => Char.ofNat (a * 16 + b) :: l)
        | _, _ => none
      | _ => none
    else (pathUnescapeAux rest).map (fun l => c :: l)

def pathUnescape (s : String) : Option String := (pathUnescapeAux s.data).map String.mk

/-! ## Constants (operations.go lines 48-110) -/

def oidcIssuanceLogin : String := "/oidc/login"

def credentialContext : String := "https://www.w3.org/2018/credentials/v1"

def trustBlocExampleContext : String := "https://trustbloc.github.io/context/vc/examples-ext-v1.jsonld"

def citizenshipContext : String := "https://w3id.org/citizenship/v1"

def externalScopeQueryParam : String := "subject_data"

/-- Go time.Second in nanoseconds; a time.Duration is an int64 nanosecond
count and json.Marshal renders it as that integer. -/
def timeSecondNs : Int := 1000000000

/-! ## oidcAuthorize (operations.go lines 1681-1751)

The handler is modelled after form parsing: inputs are the form values, plus
the fresh UUID that uuid.NewString returns for authState.  Error messages of
the unescape failures carry a dynamic error suffix in Go, elided here.
-/

structure AuthorizeResult where
  status : Nat
  body : String
  store : Store
  cookie : Option (String × String)
  redirect : Option String

def oidcAuthorize (store : Store) (authState : String)
    (claims redirectURI scope state responseType clientID : String) : AuthorizeResult :=
  match pathUnescape claims with
  | none => ⟨400, "failed to read claims", store, none, none⟩
  | some claimsU =>
    match pathUnescape redirectURI with
    | none => ⟨400, "failed to read redirect URI", store, none, none⟩
    | some redirectURIU =>
      if claimsU = "" ∨ redirectURIU = "" ∨ clientID = "" ∨ state = "" then
        ⟨400, "Invalid Request", store, none, none⟩
      else
        ⟨302, "",
          Store.put store (getAuthStateKey authState)
            (marshalAuthRequest ⟨claimsU, scope, state, responseType, clientID, redirectURIU⟩),
          some ("state", authState), some oidcIssuanceLogin⟩

/-! ## oidcSendAuthorizeResponse (operations.go lines 1753-1805)

The Go handler looks up the map keys redirect_uri and state after
deserializing and answers 500 when either is missing; unmarshalAuthRequest
only accepts complete documents (the only ones oidcAuthorize writes), so
those two 500 paths are subsumed by the deserialization-failure path.
-/

structure SendAuthorizeResult where
  status : Nat
  body : String
  store : Store
  redirect : Option String

def oidcSendAuthorizeResponse (store : Store) (stateCookie : Option String)
    (authCode : String) : SendAuthorizeResult :=
  match stateCookie with
  | none => ⟨403, "invalid state", store, none⟩
  | some cookieVal =>
    match Store.get store (getAuthStateKey cookieVal) with
    | none => ⟨400, "invalid request", store, none⟩
    | some authRqstBytes =>
      match unmarshalAuthRequest authRqstBytes with
      | none => ⟨500, "failed to read request", store, none⟩
      | some authRequest =>
        ⟨302, "", Store.put store (getAuthCodeKey authCode) cookieVal,
          some (authRequest.redirectURI ++ "?code=" ++ authCode ++ "&state="
            ++ authRequest.state)⟩

/-! ## oidcTokenEndpoint (operations.go lines 1807-1867)

The success body is json.Marshal of a map with keys access_token, expires_in
and token_type; the expires_in value is the Go expression 3600 * time.Second,
a time.Duration, which marshals as its nanosecond count.  The body is kept
structured; reads records the store keys read, in order.
-/

inductive OIDCBody where
  | err (msg : String)
  | token (tokenType accessToken : String) (expiresIn : Int)

structure TokenResult where
  status : Nat
  body : OIDCBody
  store : Store
  reads : List String

def oidcTokenEndpoint (store : Store) (mockAccessToken mockIssuerID : String)
    (code redirectURI grantType : String) : TokenResult :=
  if grantType ≠ "authorization_code" then
    ⟨400, .err "unsupported grant type", store, []⟩
  else
    match Store.get store (getAuthCodeKey code) with
    | none => ⟨400, .err "invalid state", store, [getAuthCodeKey code]⟩
    | some authState =>
      match Store.get store (getAuthStateKey authState) with
      | none => ⟨400, .err "invalid request", store,
          [getAuthCodeKey code, getAuthStateKey authState]⟩
      | some authRqstBytes =>
        match unmarshalAuthRequest authRqstBytes with
        | none => ⟨500, .err "failed to read request", store,
            [getAuthCodeKey code, getAuthStateKey authState]⟩
        | some authRequest =>
          if authRequest.redirectURI ≠ redirectURI then
            ⟨500, .err "request validation failed", store,
              [getAuthCodeKey code, getAuthStateKey authState]⟩
          else
            ⟨200, .token "Bearer" mockAccessToken (3600 * timeSecondNs),
              Store.put store (getAccessTokenKey mockAccessToken) mockIssuerID,
              [getAuthCodeKey code, getAuthStateKey authState]⟩

/-! ## oidcCredentialEndpoint (operations.go lines 1869-1941)

The Go handler splits the Authorization header with
strings.Split(header, "Bearer ") and requires exactly two parts with a
non-empty second part, then resolves the access token, checks the issuer id
against the path id and loads the pending credential.  Parsing and signing of
the loaded credential (aries verifiable / Ed25519) are external collaborators,
so the model stops at the authorized stage with the data that reaches it.
-/

def splitBearerAux : Nat → List Char → List (List Char)
  | _, [] => [[]]
  | 0, l => [l]
  | fuel + 1, c :: rest =>
    if "Bearer ".data.isPrefixOf (c :: rest) then
      [] :: splitBearerAux fuel (rest.drop 6)
    else
      match splitBearerAux fuel rest with
      | [] => [[c]]
      | p :: ps => (c :: p) :: ps

/-- Go strings.Split(s, "Bearer "): split around each non-overlapping,
leftmost-first instance of the separator. -/
def splitBearer (s : String) : List String :=
  (splitBearerAux (s.data.length + 1) s.data).map String.mk

inductive CredentialOutcome where
  | badFormat
  | malformedToken
  | invalidToken
  | unknownToken (token : String)
  | issuerMismatch (token issuerID : String)
  | missingCredential (token issuerID : String)
  | authorized (token issuerID credential : String)

def CredentialOutcome.toStatus : CredentialOutcome → Option Nat
  | .badFormat => some 400
  | .malformedToken => some 400
  | .invalidToken => some 403
  | .unknownToken _ => some 400
  | .issuerMismatch _ _ => some 403
  | .missingCredential _ _ => some 500
  | .authorized _ _ _ => none

def CredentialOutcome.toErrorMsg : CredentialOutcome → Option String
  | .badFormat => some "unsupported format requested"
  | .malformedToken => some "malformed token"
  | .invalidToken => some "invalid token"
  | .unknownToken _ => some "unsupported format requested"
  | .issuerMismatch _ _ => some "invalid transaction"
  | .missingCredential _ _ => some "failed to get credential"
  | .authorized _ _ _ => none

/-- The access-token store lookup performed by the handler, when one happens:
returns the token that was looked up. -/
def CredentialOutcome.lookedUpToken : CredentialOutcome → Option String
  | .badFormat => none
  | .malformedToken => none
  | .invalidToken => none
  | .unknownToken t => some t
  | .issuerMismatch t _ => some t
  | .missingCredential t _ => some t
  | .authorized t _ _ => some t

def oidcCredentialEndpoint (store : Store) (pathID format authHeaderRaw : String) :
    CredentialOutcome :=
  if format ≠ "" ∧ format ≠ "ldp_vc" then .badFormat
  else if (splitBearer authHeaderRaw).length ≠ 2 then .malformedToken
  else if (splitBearer authHeaderRaw).getD 1 "" = "" then .invalidToken
  else
    match Store.get store (getAccessTokenKey ((splitBearer authHeaderRaw).getD 1 "")) with
    | none => .unknownToken ((splitBearer authHeaderRaw).getD 1 "")
    | some issuerID =>
      if pathID ≠ issuerID then
        .issuerMismatch ((splitBearer authHeaderRaw).getD 1 "") issuerID
      else
        match Store.get store (getCredStoreKey pathID) with
        | none => .missingCredential ((splitBearer authHeaderRaw).getD 1 "") issuerID
        | some credentialBytes =>
          .authorized ((splitBearer authHeaderRaw).getD 1 "") issuerID credentialBytes

/-! ## initiateIssuance (operations.go lines 1569-1662)

The issuerConfiguration struct is referenced at line 1594 but its declaration
is not among the sources; its shape is modelled from the spec.  The wallet
deep-link construction (net/url) that follows the store writes is an external
collaborator and outside this model; the result carries everything the store
writes plus the derived issuer id.
-/

/-- Modelled from the spec: the issuerConfiguration struct (declaration not
under src/) carries issuer, authorization_endpoint, token_endpoint,
credential_endpoint and the raw credential_manifests payload. -/
structure IssuerConfiguration where
  issuer : String
  authorizationEndpoint : String
  tokenEndpoint : String
  credentialEndpoint : String
  credentialManifests : String

/-- Modelled from the spec: json.MarshalIndent with one-tab indentation of
the issuerConfiguration document, manifests embedded as raw JSON. -/
def marshalIssuerConfiguration (c : IssuerConfiguration) : String :=
  "\x7b\n\t\"issuer\": \"" ++ String.mk (escapeJSONList c.issuer.data)
    ++ "\",\n\t\"authorization_endpoint\": \"" ++ String.mk (escapeJSONList c.authorizationEndpoint.data)
    ++ "\",\n\t\"token_endpoint\": \"" ++ String.mk (escapeJSONList c.tokenEndpoint.data)
    ++ "\",\n\t\"credential_endpoint\": \"" ++ String.mk (escapeJSONList c.credentialEndpoint.data)
    ++ "\",\n\t\"credential_manifests\": " ++ c.credentialManifests ++ "\n\x7d"

def saveIssuanceConfig (store : Store) (key issuerConf credential : String) : Store :=
  Store.put (Store.put store key issuerConf) (getCredStoreKey key) credential

structure InitiateIssuanceResult where
  status : Nat
  store : Store
  issuer : String

def initiateIssuance (store : Store) (key issuerURL credManifest credential : String) :
    InitiateIssuanceResult :=
  let issuer := issuerURL ++ "/" ++ key
  let issuerConf := marshalIssuerConfiguration
    ⟨issuer, issuer ++ "/oidc/authorize", issuer ++ "/oidc/token",
      issuer ++ "/oidc/credential", credManifest⟩
  ⟨200, saveIssuanceConfig store key issuerConf credential, issuer⟩

/-! ## prepareCredential (operations.go lines 2289-2358)

Go's map[string]interface against a JSON-ish value type; Go maps are
unordered, modelled as association lists where lookup takes the first match
and insertion removes older bindings.  The issuer profile comes from the
external VC service (retrieveProfile) and is passed in; the fresh credential
id UUID and the issuance time are likewise arguments.  The failing type
assertions in getCustomContext (ctx is asserted to be an array, each element
a string) panic in Go, modelled as none.
-/

inductive JSONValue where
  | null
  | bool (b : Bool)
  | num (n : Int)
  | str (s : String)
  | arr (elems : List JSONValue)
  | obj (fields : List (String × JSONValue))

abbrev JSONObj := List (String × JSONValue)

def jlookup : JSONObj → String → Option JSONValue
  | [], _ => none
  | (k1, v) :: t, k => if k = k1 then some v else jlookup t k

def jerase : JSONObj → String → JSONObj
  | [], _ => []
  | (k1, v) :: t, k => if k1 = k then jerase t k else (k1, v) :: jerase t k

def jinsert (m : JSONObj) (k : String) (v : JSONValue) : JSONObj :=
  (k, v) :: jerase m k

/-- Go's element-wise string type assertion v.(string) over the array. -/
def asStringArray : List JSONValue → Option (List String)
  | [] => some []
  | .str s :: t => (asStringArray t).map (fun l => s :: l)
  | _ => none

def getCustomContext (existingContext : List String) (customCtx : JSONObj) :
    Option (List String) :=
  match jlookup customCtx "@context" with
  | some v =>
    match v with
    | .arr elems => asStringArray elems
    | _ => none
  | none => some existingContext

structure IssuerProfile where
  did : String
  name : String
  uri : String

structure PreparedCredential where
  context : List String
  types : List String
  subject : Option JSONValue
  customFields : JSONObj
  issued : String
  issuerID : String
  issuerName : String
  id : String

def prepareCredential (subject : JSONObj) (scope : String) (profile : IssuerProfile)
    (freshUUID now : String) : Option PreparedCredential :=
  let subject1 := jinsert subject "id" (.str "")
  let defaultCredTypes := ["VerifiableCredential", "PermanentResidentCard"]
  let ctxAndFields : Option (List String × JSONObj) :=
    match jlookup subject1 "vcmetadata" with
    | some (.obj vcMetaData) =>
      (getCustomContext [credentialContext, trustBlocExampleContext] vcMetaData).map
        (fun ctx => (ctx,
          jinsert (jinsert [] "name" ((jlookup vcMetaData "name").getD .null))
            "description" ((jlookup vcMetaData "description").getD .null)))
    | _ => some ([credentialContext, trustBlocExampleContext], [])
  match ctxAndFields with
  | none => none
  | some (vcContext, customFields0) =>
    let subject2 := jerase (jerase (jerase (jerase subject1 "created_at") "updated_at")
      "userid") "vcmetadata"
    let branch :=
      if scope = externalScopeQueryParam then
        (defaultCredTypes, [credentialContext, citizenshipContext],
          jlookup subject2 "subjectData",
          jinsert customFields0 "name" (.str "Permanent Resident Card"))
      else
        (["VerifiableCredential", scope], vcContext, some (.obj subject2), customFields0)
    let credSubject :=
      match jlookup subject2 "vccredentialsubject" with
      | some (.obj s) => some (.obj s)
      | _ => branch.2.2.1
    some ⟨branch.2.1, branch.1, credSubject, branch.2.2.2, now, profile.did, profile.name,
      profile.uri ++ "/" ++ freshUUID⟩

/-! ## Disjointness of the composite key spaces -/

theorem key_ne_credStoreKey (key : String) : key ≠ getCredStoreKey key := by
  intro h
  have h2 : key.data.length = key.data.length + 11 :=
    congrArg (fun s => s.data.length) h
  omega

theorem accessTokenKey_ne_authCodeKey (x y : String) :
    getAccessTokenKey x ≠ getAuthCodeKey y := by
  intro h
  have h2 : (some 'c' : Option Char) = some 'u' :=
    congrArg (fun s => s.data.get? 1) h
  exact absurd h2 (by decide)

theorem accessTokenKey_ne_authStateKey (x y : String) :
    getAccessTokenKey x ≠ getAuthStateKey y := by
  intro h
  have h2 : (some 'c' : Option Char) = some 'u' :=
    congrArg (fun s => s.data.get? 1) h
  exact absurd h2 (by decide)

theorem authCodeKey_ne_authStateKey (x y : String) :
    getAuthCodeKey x ≠ getAuthStateKey y := by
  intro h
  have h2 : (some 'c' : Option Char) = some 's' :=
    congrArg (fun s => s.data.get? 4) h
  exact absurd h2 (by decide)

/-- Helper: the token endpoint succeeds whenever the code resolves to a stored
authorization request whose redirect_uri matches the request parameter. -/
theorem token_success (store : Store) (t iss code redirectURI authState : String)
    (req : AuthRequest)
    (h1 : Store.get store (getAuthCodeKey code) = some authState)
    (h2 : Store.get store (getAuthStateKey authState) = some (marshalAuthRequest req))
    (h3 : req.redirectURI = redirectURI) :
    oidcTokenEndpoint store t iss code redirectURI "authorization_code"
      = ⟨200, .token "Bearer" t (3600 * timeSecondNs),
          Store.put store (getAccessTokenKey t) iss,
          [getAuthCodeKey code, getAuthStateKey authState]⟩ := by
  unfold oidcTokenEndpoint
  rw [if_neg (by simp)]
  simp only [h1, h2, unmarshal_marshalAuthRequest, h3]
  rw [if_neg (by simp)]

/-! ## Claim theorems -/

/-- C4: a Token call whose grant_type is not authorization_code answers 400
with the JSON error body unsupported grant type, leaves the store unchanged
and reads no store keys. -/
theorem token_unsupported_grant_type (store : Store)
    (t iss code redirectURI grantType : String)
    (h : grantType ≠ "authorization_code") :
    oidcTokenEndpoint store t iss code redirectURI grantType
      = ⟨400, .err "unsupported grant type", store, []⟩ := by
  unfold oidcTokenEndpoint
  rw [if_pos h]

theorem token_unsupported_grant_type_witness :
    ("client_credentials" : String) ≠ "authorization_code"
    ∧ oidcTokenEndpoint [] "t1" "iss1" "c1" "r1" "client_credentials"
      = ⟨400, .err "unsupported grant type", [], []⟩ :=
  ⟨by decide,
    token_unsupported_grant_type [] "t1" "iss1" "c1" "r1" "client_credentials" (by decide)⟩

/-- C5: a Token call with a valid code whose stored authorization request has
a redirect_uri different from the request parameter answers 500 with error
message request validation failed and stores no access token (the store is
unchanged). -/
theorem token_redirect_mismatch (store : Store)
    (t iss code redirectURI authState : String) (req : AuthRequest)
    (h1 : Store.get store (getAuthCodeKey code) = some authState)
    (h2 : Store.get store (getAuthStateKey authState) = some (marshalAuthRequest req))
    (h3 : req.redirectURI ≠ redirectURI) :
    oidcTokenEndpoint store t iss code redirectURI "authorization_code"
      = ⟨500, .err "request validation failed", store,
          [getAuthCodeKey code, getAuthStateKey authState]⟩ := by
  unfold oidcTokenEndpoint
  rw [if_neg (by simp)]
  simp only [h1, h2, unmarshal_marshalAuthRequest]
  rw [if_pos h3]

theorem token_redirect_mismatch_witness :
    Store.get
        [(getAuthCodeKey "code1", "as1"),
         (getAuthStateKey "as1",
          marshalAuthRequest ⟨"claims1", "sc", "st", "code", "client1", "https://a.example/cb"⟩)]
        (getAuthCodeKey "code1") = some "as1"
    ∧ Store.get
        [(getAuthCodeKey "code1", "as1"),
         (getAuthStateKey "as1",
          marshalAuthRequest ⟨"claims1", "sc", "st", "code", "client1", "https://a.example/cb"⟩)]
        (getAuthStateKey "as1")
      = some (marshalAuthRequest ⟨"claims1", "sc", "st", "code", "client1", "https://a.example/cb"⟩)
    ∧ (AuthRequest.redirectURI ⟨"claims1", "sc", "st", "code", "client1", "https://a.example/cb"⟩)
      ≠ "https://b.example/cb"
    ∧ oidcTokenEndpoint
        [(getAuthCodeKey "code1", "as1"),
         (getAuthStateKey "as1",
          marshalAuthRequest ⟨"claims1", "sc", "st", "code", "client1", "https://a.example/cb"⟩)]
        "t1" "iss1" "code1" "https://b.example/cb" "authorization_code"
      = ⟨500, .err "request validation failed",
          [(getAuthCodeKey "code1", "as1"),
           (getAuthStateKey "as1",
            marshalAuthRequest ⟨"claims1", "sc", "st", "code", "client1", "https://a.example/cb"⟩)],
          [getAuthCodeKey "code1", getAuthStateKey "as1"]⟩ :=
  ⟨rfl, rfl, by decide,
    token_redirect_mismatch _ "t1" "iss1" "code1" "https://b.example/cb" "as1"
      ⟨"claims1", "sc", "st", "code", "client1", "https://a.example/cb"⟩ rfl rfl (by decide)⟩

/-- C3: an Authorize call in which any of claims, redirect_uri, client_id or
state is empty after URL-unescaping answers 400 Invalid Request and leaves
the store unchanged, with no cookie and no redirect. -/
theorem authorize_missing_param_rejected (store : Store)
    (authState claims redirectURI scope state responseType clientID : String)
    (claimsU redirectURIU : String)
    (hc : pathUnescape claims = some claimsU)
    (hu : pathUnescape redirectURI = some redirectURIU)
    (hempty : claimsU = "" ∨ redirectURIU = "" ∨ clientID = "" ∨ state = "") :
    oidcAuthorize store authState claims redirectURI scope state responseType clientID
      = ⟨400, "Invalid Request", store, none, none⟩ := by
  unfold oidcAuthorize
  simp only [hc, hu]
  rw [if_pos hempty]

theorem authorize_missing_param_rejected_witness :
    pathUnescape "" = some ""
    ∧ pathUnescape "https%3A%2F%2Fa.example%2Fcb" = some "https://a.example/cb"
    ∧ (("" : String) = "" ∨ ("https://a.example/cb" : String) = ""
        ∨ ("client1" : String) = "" ∨ ("st" : String) = "")
    ∧ oidcAuthorize [] "as1" "" "https%3A%2F%2Fa.example%2Fcb" "sc" "st" "code" "client1"
      = ⟨400, "Invalid Request", [], none, none⟩ :=
  ⟨rfl, by decide, Or.inl rfl,
    authorize_missing_param_rejected [] "as1" "" "https%3A%2F%2Fa.example%2Fcb" "sc" "st"
      "code" "client1" "" "https://a.example/cb" rfl (by decide) (Or.inl rfl)⟩

/-- C1 (code bug): at a valid token exchange the endpoint does mint the fresh
token, store it under access_token with the path issuer id and answer 200
with token_type Bearer and the minted access_token — but the serialized
expires_in value is 3600 multiplied by time.Second, a time.Duration that
json.Marshal renders as its nanosecond count 3600000000000, not 3600. -/
theorem token_endpoint_expires_in_nanoseconds :
    oidcTokenEndpoint
        [(getAuthCodeKey "code1", "as1"),
         (getAuthStateKey "as1",
          marshalAuthRequest ⟨"claims1", "sc", "st", "code", "client1", "https://a.example/cb"⟩)]
        "token1" "issuer1" "code1" "https://a.example/cb" "authorization_code"
      = ⟨200, .token "Bearer" "token1" 3600000000000,
          Store.put
            [(getAuthCodeKey "code1", "as1"),
             (getAuthStateKey "as1",
              marshalAuthRequest ⟨"claims1", "sc", "st", "code", "client1", "https://a.example/cb"⟩)]
            (getAccessTokenKey "token1") "issuer1",
          [getAuthCodeKey "code1", getAuthStateKey "as1"]⟩
    ∧ (3600000000000 : Int) ≠ 3600 := by
  constructor
  · have h := token_success
      [(getAuthCodeKey "code1", "as1"),
       (getAuthStateKey "as1",
        marshalAuthRequest ⟨"claims1", "sc", "st", "code", "client1", "https://a.example/cb"⟩)]
      "token1" "issuer1" "code1" "https://a.example/cb" "as1"
      ⟨"claims1", "sc", "st", "code", "client1", "https://a.example/cb"⟩ rfl rfl rfl
    rw [h]
    norm_num [timeSecondNs]
  · decide

/-- C6: for valid Authorize inputs the stored AuthorizationRequestState
round-trips exactly — the record stored under authstate carries precisely
the supplied fields, it deserializes back to exactly those fields, and
SendAuthorizeResponse, loading it by the cookie value, succeeds and redirects
using the stored redirect_uri and state. -/
theorem authorize_request_state_roundtrip (store : Store)
    (authState code claims redirectURI scope state responseType clientID : String)
    (claimsU redirectURIU : String)
    (hc : pathUnescape claims = some claimsU)
    (hu : pathUnescape redirectURI = some redirectURIU)
    (h1 : claimsU ≠ "") (h2 : redirectURIU ≠ "") (h3 : clientID ≠ "") (h4 : state ≠ "") :
    Store.get
        (oidcAuthorize store authState claims redirectURI scope state responseType clientID).store
        (getAuthStateKey authState)
      = some (marshalAuthRequest ⟨claimsU, scope, state, responseType, clientID, redirectURIU⟩)
    ∧ unmarshalAuthRequest
        (marshalAuthRequest ⟨claimsU, scope, state, responseType, clientID, redirectURIU⟩)
      = some ⟨claimsU, scope, state, responseType, clientID, redirectURIU⟩
    ∧ oidcSendAuthorizeResponse
        (oidcAuthorize store authState claims redirectURI scope state responseType clientID).store
        (some authState) code
      = ⟨302, "",
          Store.put
            (oidcAuthorize store authState claims redirectURI scope state responseType
              clientID).store
            (getAuthCodeKey code) authState,
          some (redirectURIU ++ "?code=" ++ code ++ "&state=" ++ state)⟩ := by
  have hval : ¬ (claimsU = "" ∨ redirectURIU = "" ∨ clientID = "" ∨ state = "") := by
    simp [h1, h2, h3, h4]
  have hA : oidcAuthorize store authState claims redirectURI scope state responseType clientID
      = ⟨302, "",
          Store.put store (getAuthStateKey authState)
            (marshalAuthRequest ⟨claimsU, scope, state, responseType, clientID, redirectURIU⟩),
          some ("state", authState), some oidcIssuanceLogin⟩ := by
    unfold oidcAuthorize
    simp only [hc, hu]
    rw [if_neg hval]
  rw [hA]
  refine ⟨Store.get_put_self _ _ _, unmarshal_marshalAuthRequest _, ?_⟩
  unfold oidcSendAuthorizeResponse
  simp only [Store.get_put_self, unmarshal_marshalAuthRequest]

theorem authorize_request_state_roundtrip_witness :
    pathUnescape "claims1" = some "claims1"
    ∧ pathUnescape "https%3A%2F%2Fa.example%2Fcb" = some "https://a.example/cb"
    ∧ ("claims1" : String) ≠ "" ∧ ("https://a.example/cb" : String) ≠ ""
    ∧ ("client1" : String) ≠ "" ∧ ("st" : String) ≠ ""
    ∧ (Store.get
        (oidcAuthorize [] "as1" "claims1" "https%3A%2F%2Fa.example%2Fcb" "sc" "st" "code"
          "client1").store (getAuthStateKey "as1")
      = some (marshalAuthRequest ⟨"claims1", "sc", "st", "code", "client1",
          "https://a.example/cb"⟩)
    ∧ unmarshalAuthRequest
        (marshalAuthRequest ⟨"claims1", "sc", "st", "code", "client1", "https://a.example/cb"⟩)
      = some ⟨"claims1", "sc", "st", "code", "client1", "https://a.example/cb"⟩
    ∧ oidcSendAuthorizeResponse
        (oidcAuthorize [] "as1" "claims1" "https%3A%2F%2Fa.example%2Fcb" "sc" "st" "code"
          "client1").store (some "as1") "code1"
      = ⟨302, "",
          Store.put
            (oidcAuthorize [] "as1" "claims1" "https%3A%2F%2Fa.example%2Fcb" "sc" "st" "code"
              "client1").store
            (getAuthCodeKey "code1") "as1",
          some ("https://a.example/cb" ++ "?code=" ++ "code1" ++ "&state=" ++ "st")⟩) :=
  ⟨by decide, by decide, by decide, by decide, by decide, by decide,
    authorize_request_state_roundtrip [] "as1" "code1" "claims1"
      "https%3A%2F%2Fa.example%2Fcb" "sc" "st" "code" "client1" "claims1"
      "https://a.example/cb" (by decide) (by decide) (by decide) (by decide) (by decide)
      (by decide)⟩

/-- C7: a code minted by SendAuthorizeResponse, exchanged via Token with the
matching redirect_uri and grant_type authorization_code, yields 200 with a
Bearer access token; and because nothing invalidates the code, a second
exchange of the same code under the same conditions yields 200 again. -/
theorem auth_code_exchange_succeeds_and_replays (store : Store)
    (cookieVal code redirectURI token1 token2 issuerID : String) (req : AuthRequest)
    (hstored : Store.get store (getAuthStateKey cookieVal) = some (marshalAuthRequest req))
    (hmatch : req.redirectURI = redirectURI) :
    (oidcSendAuthorizeResponse store (some cookieVal) code).status = 302
    ∧ oidcTokenEndpoint (oidcSendAuthorizeResponse store (some cookieVal) code).store
        token1 issuerID code redirectURI "authorization_code"
      = ⟨200, .token "Bearer" token1 (3600 * timeSecondNs),
          Store.put (oidcSendAuthorizeResponse store (some cookieVal) code).store
            (getAccessTokenKey token1) issuerID,
          [getAuthCodeKey code, getAuthStateKey cookieVal]⟩
    ∧ oidcTokenEndpoint
        (Store.put (oidcSendAuthorizeResponse store (some cookieVal) code).store
          (getAccessTokenKey token1) issuerID)
        token2 issuerID code redirectURI "authorization_code"
      = ⟨200, .token "Bearer" token2 (3600 * timeSecondNs),
          Store.put
            (Store.put (oidcSendAuthorizeResponse store (some cookieVal) code).store
              (getAccessTokenKey token1) issuerID)
            (getAccessTokenKey token2) issuerID,
          [getAuthCodeKey code, getAuthStateKey cookieVal]⟩ := by
  have hS : oidcSendAuthorizeResponse store (some cookieVal) code
      = ⟨302, "", Store.put store (getAuthCodeKey code) cookieVal,
          some (req.redirectURI ++ "?code=" ++ code ++ "&state=" ++ req.state)⟩ := by
    unfold oidcSendAuthorizeResponse
    simp only [hstored, unmarshal_marshalAuthRequest]
  rw [hS]
  have g1 : Store.get (Store.put store (getAuthCodeKey code) cookieVal)
      (getAuthCodeKey code) = some cookieVal := Store.get_put_self _ _ _
  have g2 : Store.get (Store.put store (getAuthCodeKey code) cookieVal)
      (getAuthStateKey cookieVal) = some (marshalAuthRequest req) := by
    rw [Store.get_put_other _ _ _ _ (authCodeKey_ne_authStateKey code cookieVal).symm]
    exact hstored
  have g3 : Store.get
      (Store.put (Store.put store (getAuthCodeKey code) cookieVal)
        (getAccessTokenKey token1) issuerID)
      (getAuthCodeKey code) = some cookieVal := by
    rw [Store.get_put_other _ _ _ _ (accessTokenKey_ne_authCodeKey token1 code).symm]
    exact g1
  have g4 : Store.get
      (Store.put (Store.put store (getAuthCodeKey code) cookieVal)
        (getAccessTokenKey token1) issuerID)
      (getAuthStateKey cookieVal) = some (marshalAuthRequest req) := by
    rw [Store.get_put_other _ _ _ _ (accessTokenKey_ne_authStateKey token1 cookieVal).symm]
    exact g2
  exact ⟨rfl,
    token_success _ token1 issuerID code redirectURI cookieVal req g1 g2 hmatch,
    token_success _ token2 issuerID code redirectURI cookieVal req g3 g4 hmatch⟩

theorem auth_code_exchange_succeeds_and_replays_witness :
    Store.get [(getAuthStateKey "as1",
        marshalAuthRequest ⟨"claims1", "sc", "st", "code", "client1", "https://a.example/cb"⟩)]
        (getAuthStateKey "as1")
      = some (marshalAuthRequest ⟨"claims1", "sc", "st", "code", "client1",
          "https://a.example/cb"⟩)
    ∧ (AuthRequest.redirectURI ⟨"claims1", "sc", "st", "code", "client1",
        "https://a.example/cb"⟩) = "https://a.example/cb"
    ∧ ((oidcSendAuthorizeResponse
        [(getAuthStateKey "as1",
          marshalAuthRequest ⟨"claims1", "sc", "st", "code", "client1",
            "https://a.example/cb"⟩)] (some "as1") "code1").status = 302
    ∧ oidcTokenEndpoint
        (oidcSendAuthorizeResponse
          [(getAuthStateKey "as1",
            marshalAuthRequest ⟨"claims1", "sc", "st", "code", "client1",
              "https://a.example/cb"⟩)] (some "as1") "code1").store
        "t1" "iss1" "code1" "https://a.example/cb" "authorization_code"
      = ⟨200, .token "Bearer" "t1" (3600 * timeSecondNs),
          Store.put
            (oidcSendAuthorizeResponse
              [(getAuthStateKey "as1",
                marshalAuthRequest ⟨"claims1", "sc", "st", "code", "client1",
                  "https://a.example/cb"⟩)] (some "as1") "code1").store
            (getAccessTokenKey "t1") "iss1",
          [getAuthCodeKey "code1", getAuthStateKey "as1"]⟩
    ∧ oidcTokenEndpoint
        (Store.put
          (oidcSendAuthorizeResponse
            [(getAuthStateKey "as1",
              marshalAuthRequest ⟨"claims1", "sc", "st", "code", "client1",
                "https://a.example/cb"⟩)] (some "as1") "code1").store
          (getAccessTokenKey "t1") "iss1")
        "t2" "iss1" "code1" "https://a.example/cb" "authorization_code"
      = ⟨200, .token "Bearer" "t2" (3600 * timeSecondNs),
          Store.put
            (Store.put
              (oidcSendAuthorizeResponse
                [(getAuthStateKey "as1",
                  marshalAuthRequest ⟨"claims1", "sc", "st", "code", "client1",
                    "https://a.example/cb"⟩)] (some "as1") "code1").store
              (getAccessTokenKey "t1") "iss1")
            (getAccessTokenKey "t2") "iss1",
          [getAuthCodeKey "code1", getAuthStateKey "as1"]⟩) :=
  ⟨rfl, rfl,
    auth_code_exchange_succeeds_and_replays
      [(getAuthStateKey "as1",
        marshalAuthRequest ⟨"claims1", "sc", "st", "code", "client1", "https://a.example/cb"⟩)]
      "as1" "code1" "https://a.example/cb" "t1" "t2" "iss1"
      ⟨"claims1", "sc", "st", "code", "client1", "https://a.example/cb"⟩ rfl rfl⟩

/-- Follows the spec's words, for comparison with the code: an Authorization
header of exactly the form Bearer token with a non-empty token. -/
def specExactBearerForm (h : String) : Bool :=
  "Bearer ".data.isPrefixOf h.data && decide (7 < h.data.length)

/-- C2 (counterexample): the header xBearer tok is not of the exact form
Bearer token, yet the Credential handler neither answers 400 nor 403 on it:
strings.Split yields two parts whose second is tok, so the handler reaches
the access-token lookup with token tok and proceeds. -/
theorem credential_nonbearer_header_reaches_lookup :
    specExactBearerForm "xBearer tok" = false
    ∧ CredentialOutcome.lookedUpToken
        (oidcCredentialEndpoint [(getAccessTokenKey "tok", "iss")] "iss" "" "xBearer tok")
      = some "tok"
    ∧ CredentialOutcome.toStatus
        (oidcCredentialEndpoint [(getAccessTokenKey "tok", "iss")] "iss" "" "xBearer tok")
      ≠ some 400
    ∧ CredentialOutcome.toStatus
        (oidcCredentialEndpoint [(getAccessTokenKey "tok", "iss")] "iss" "" "xBearer tok")
      ≠ some 403 := by
  refine ⟨by decide, by decide, by decide, by decide⟩

/-- C2 (amended): header handling follows Go strings.Split on the separator
Bearer followed by a space — a split into anything other than two parts gives
400 malformed token; two parts with an empty second part gives 403 invalid
token; two parts with a non-empty second part always reaches the token
lookup with that second part as the token, even when text precedes the
separator. -/
theorem credential_auth_header_split_behavior (store : Store)
    (pathID format header : String)
    (hfmt : format = "" ∨ format = "ldp_vc") :
    ((splitBearer header).length ≠ 2 →
      oidcCredentialEndpoint store pathID format header = .malformedToken)
    ∧ (∀ a, splitBearer header = [a, ""] →
      oidcCredentialEndpoint store pathID format header = .invalidToken)
    ∧ (∀ a b, splitBearer header = [a, b] → b ≠ "" →
      CredentialOutcome.lookedUpToken (oidcCredentialEndpoint store pathID format header)
        = some b) := by
  have hfmt2 : ¬ (format ≠ "" ∧ format ≠ "ldp_vc") := by
    rcases hfmt with h | h <;> simp [h]
  refine ⟨?_, ?_, ?_⟩
  · intro h
    unfold oidcCredentialEndpoint
    rw [if_neg hfmt2, if_pos h]
  · intro a h
    unfold oidcCredentialEndpoint
    rw [if_neg hfmt2]
    simp [h]
  · intro a b h hb
    unfold oidcCredentialEndpoint
    rw [if_neg hfmt2]
    simp only [h, List.length_cons, List.length_nil, List.getD_cons_succ, List.getD_cons_zero]
    rw [if_neg (by simp), if_neg hb]
    rcases hget : Store.get store (getAccessTokenKey b) with _ | iss
    · simp [CredentialOutcome.lookedUpToken]
    · by_cases hm : pathID ≠ iss
      · simp [hm, CredentialOutcome.lookedUpToken]
      · rcases hget2 : Store.get store (getCredStoreKey pathID) with _ | cred <;>
          simp [hm, hget2, CredentialOutcome.lookedUpToken]

theorem credential_auth_header_split_behavior_witness :
    (("" : String) = "" ∨ ("" : String) = "ldp_vc")
    ∧ (splitBearer "Bearer Bearer x").length ≠ 2
    ∧ oidcCredentialEndpoint [] "iss" "" "Bearer Bearer x" = .malformedToken :=
  ⟨Or.inl rfl, by decide,
    (credential_auth_header_split_behavior [] "iss" "" "Bearer Bearer x" (Or.inl rfl)).1
      (by decide)⟩

/-- C10: a Credential call with a well-formed non-empty bearer token that has
no access_token entry in the store answers 400, and its JSON error message is
unsupported format requested — the same message the format check uses — even
though the failure is an unknown token. -/
theorem credential_unknown_token_format_error_message (store : Store)
    (pathID format header token : String)
    (hfmt : format = "" ∨ format = "ldp_vc")
    (hsplit : splitBearer header = ["", token]) (htok : token ≠ "")
    (hmiss : Store.get store (getAccessTokenKey token) = none) :
    oidcCredentialEndpoint store pathID format header = .unknownToken token
    ∧ CredentialOutcome.toStatus (.unknownToken token) = some 400
    ∧ CredentialOutcome.toErrorMsg (.unknownToken token)
      = some "unsupported format requested"
    ∧ CredentialOutcome.toErrorMsg (.unknownToken token)
      = CredentialOutcome.toErrorMsg .badFormat := by
  have hfmt2 : ¬ (format ≠ "" ∧ format ≠ "ldp_vc") := by
    rcases hfmt with h | h <;> simp [h]
  refine ⟨?_, rfl, rfl, rfl⟩
  unfold oidcCredentialEndpoint
  rw [if_neg hfmt2]
  simp only [hsplit, List.length_cons, List.length_nil, List.getD_cons_succ,
    List.getD_cons_zero]
  rw [if_neg (by simp), if_neg htok, hmiss]

theorem credential_unknown_token_format_error_message_witness :
    (("" : String) = "" ∨ ("" : String) = "ldp_vc")
    ∧ splitBearer "Bearer tok" = ["", "tok"]
    ∧ ("tok" : String) ≠ ""
    ∧ Store.get [] (getAccessTokenKey "tok") = none
    ∧ (oidcCredentialEndpoint [] "iss" "" "Bearer tok" = .unknownToken "tok"
    ∧ CredentialOutcome.toStatus (.unknownToken "tok") = some 400
    ∧ CredentialOutcome.toErrorMsg (.unknownToken "tok")
      = some "unsupported format requested"
    ∧ CredentialOutcome.toErrorMsg (.unknownToken "tok")
      = CredentialOutcome.toErrorMsg .badFormat) :=
  ⟨Or.inl rfl, by decide, by decide, rfl,
    credential_unknown_token_format_error_message [] "iss" "" "Bearer tok" "tok"
      (Or.inl rfl) (by decide) (by decide) rfl⟩

/-- C8: a successful initiateIssuance computes issuer as issuerURL slash key,
persists under key a well-known configuration whose issuer field is that
issuer and whose three endpoint fields append /oidc/authorize, /oidc/token
and /oidc/credential to it, and persists the raw credential bytes under
cred_store_ key. -/
theorem initiate_issuance_persists_config_and_credential (store : Store)
    (key issuerURL credManifest credential : String) :
    (initiateIssuance store key issuerURL credManifest credential).issuer
      = issuerURL ++ "/" ++ key
    ∧ Store.get (initiateIssuance store key issuerURL credManifest credential).store key
      = some (marshalIssuerConfiguration
          ⟨issuerURL ++ "/" ++ key, issuerURL ++ "/" ++ key ++ "/oidc/authorize",
            issuerURL ++ "/" ++ key ++ "/oidc/token",
            issuerURL ++ "/" ++ key ++ "/oidc/credential", credManifest⟩)
    ∧ Store.get (initiateIssuance store key issuerURL credManifest credential).store
        (getCredStoreKey key)
      = some credential := by
  refine ⟨rfl, ?_, ?_⟩
  · show Store.get
      (Store.put (Store.put store key _) (getCredStoreKey key) credential) key = _
    rw [Store.get_put_other _ _ _ _ (key_ne_credStoreKey key), Store.get_put_self]
  · show Store.get
      (Store.put (Store.put store key _) (getCredStoreKey key) credential)
      (getCredStoreKey key) = _
    rw [Store.get_put_self]

theorem jlookup_jerase (m : JSONObj) (k k2 : String) (h : k ≠ k2) :
    jlookup (jerase m k2) k = jlookup m k := by
  induction m with
  | nil => rfl
  | cons p t ih =>
    rcases p with ⟨k1, v⟩
    by_cases h1 : k1 = k2
    · rw [show jerase ((k1, v) :: t) k2 = jerase t k2 from by simp [jerase, h1], ih]
      have hk : k ≠ k1 := by rw [h1]; exact h
      simp [jlookup, hk]
    · rw [show jerase ((k1, v) :: t) k2 = (k1, v) :: jerase t k2 from by simp [jerase, h1]]
      by_cases hk : k = k1
      · simp [jlookup, hk]
      · simp [jlookup, hk, ih]

/-- C9 (counterexample): with scope subject_data, the vcmetadata @context
override is discarded — the credential context is the fixed pair of
credential and citizenship contexts, not the supplied array. -/
theorem prepare_credential_context_override_ignored_for_subject_data :
    (prepareCredential [("vcmetadata", .obj [("@context", .arr [.str "a", .str "b"])])]
        "subject_data" ⟨"did:ex:1", "Issuer", "https://vcs.example"⟩ "u1" "t1").map
        (fun c => c.context)
      = some [credentialContext, citizenshipContext]
    ∧ [credentialContext, citizenshipContext] ≠ ["a", "b"] := by
  constructor
  · rfl
  · decide

/-- C9 (amended): for every subject map whose vcmetadata entry is a map
containing an @context array of strings, and every scope other than the
reserved subject_data, prepareCredential produces a credential whose context
is exactly the elements of that array in order, replacing the defaults. -/
theorem prepare_credential_context_override_exact (subject : JSONObj) (scope : String)
    (profile : IssuerProfile) (freshUUID now : String) (m : JSONObj)
    (elems : List JSONValue) (ctxs : List String)
    (hmeta : jlookup subject "vcmetadata" = some (.obj m))
    (hctx : jlookup m "@context" = some (.arr elems))
    (helems : asStringArray elems = some ctxs)
    (hscope : scope ≠ externalScopeQueryParam) :
    (prepareCredential subject scope profile freshUUID now).map (fun c => c.context)
      = some ctxs := by
  have hmeta1 : jlookup (jinsert subject "id" (.str "")) "vcmetadata" = some (.obj m) := by
    simp only [jinsert, jlookup]
    rw [if_neg (by decide), jlookup_jerase _ _ _ (by decide), hmeta]
  have hg : getCustomContext [credentialContext, trustBlocExampleContext] m = some ctxs := by
    unfold getCustomContext
    rw [hctx]
    exact helems
  unfold prepareCredential
  simp only [hmeta1, hg, Option.map_some']
  rw [if_neg hscope]

theorem prepare_credential_context_override_exact_witness :
    jlookup [("vcmetadata", JSONValue.obj [("@context", JSONValue.arr
        [JSONValue.str "a", JSONValue.str "b"])])] "vcmetadata"
      = some (.obj [("@context", .arr [.str "a", .str "b"])])
    ∧ jlookup [("@context", JSONValue.arr [JSONValue.str "a", JSONValue.str "b"])] "@context"
      = some (.arr [.str "a", .str "b"])
    ∧ asStringArray [JSONValue.str "a", JSONValue.str "b"] = some ["a", "b"]
    ∧ ("TestScope" : String) ≠ externalScopeQueryParam
    ∧ (prepareCredential
        [("vcmetadata", .obj [("@context", .arr [.str "a", .str "b"])])]
        "TestScope" ⟨"did:ex:1", "Issuer", "https://vcs.example"⟩ "u1" "t1").map
        (fun c => c.context)
      = some ["a", "b"] :=
  ⟨rfl, rfl, rfl, by decide,
    prepare_credential_context_override_exact
      [("vcmetadata", .obj [("@context", .arr [.str "a", .str "b"])])]
      "TestScope" ⟨"did:ex:1", "Issuer", "https://vcs.example"⟩ "u1" "t1"
      [("@context", .arr [.str "a", .str "b"])] [.str "a", .str "b"] ["a", "b"]
      rfl rfl rfl (by decide)⟩
